import Mathlib

/-!
Verification development for the therapy-scheduler core: a shallow
embedding of `time_utils.py`, `data_loader.py` and `model.py` into Lean,
with theorems settling the specification claims about the time grid,
instance validation, variable construction, constraint emission, schedule
extraction and the diagnostic subsystem.

Python dictionaries are embedded as association lists (`List (K × V)`
with `List.lookup`), Python sets as lists with membership semantics
(`List.dedup` where cardinality or key-uniqueness matters), and Python
ints as `Int` (`Nat` for block indices, which the calendar keeps in
`[0,8]`).  Fallible string parsing returns `Option`.
-/

/-! ## Time grid (`time_utils.py`) -/

/-- `DAY_ORDER` from `time_utils.py`: the canonical Monday..Friday list. -/
def DAY_ORDER : List String := ["Monday", "Tuesday", "Wednesday", "Thursday", "Friday"]

/-- `BLOCKS = list(range(9))`: the nine one-hour blocks. -/
def BLOCKS : List Nat := [0, 1, 2, 3, 4, 5, 6, 7, 8]

/-- `BLOCK_TO_RANGE` from `time_utils.py`, as an association list. -/
def BLOCK_TO_RANGE : List (Nat × String) :=
  [(0, "08:00-09:00"),
   (1, "09:00-10:00"),
   (2, "10:00-11:00"),
   (3, "11:00-12:00"),
   (4, "12:00-13:00"),
   (5, "14:00-15:00"),
   (6, "15:00-16:00"),
   (7, "16:00-17:00"),
   (8, "17:00-18:00")]

/-- `block_to_range`: dictionary access `BLOCK_TO_RANGE[block]`.  The Python
function raises `KeyError` outside `0..8`; here that is `none`. -/
def block_to_range (block : Nat) : Option String :=
  BLOCK_TO_RANGE.lookup block

/-- `range_to_block`: inverts `BLOCK_TO_RANGE` and looks the string up,
raising (here: `none`) when the string is not one of the nine canonical
ranges. -/
def range_to_block (range_str : String) : Option Nat :=
  (BLOCK_TO_RANGE.map (fun p => (p.2, p.1))).lookup range_str

/-- The `Interval` dataclass of `time_utils.py` (start/end in minutes); named `TimeInterval` here because Mathlib already has an `Interval`. -/
structure TimeInterval where
  start_minutes : Int
  end_minutes : Int
deriving DecidableEq, Repr

/-- Split a character list on a separator character, mirroring Python
`str.split(sep)` for a one-character separator. -/
def splitChar (sep : Char) : List Char → List (List Char)
  | [] => [[]]
  | c :: cs =>
    let rest := splitChar sep cs
    if c = sep then [] :: rest
    else
      match rest with
      | [] => [[c]]
      | r :: rs => (c :: r) :: rs

/-- Parse a digit run as a natural number, as Python `int()` does for a
string of decimal digits (`none` when empty or non-digit). -/
def digitsToNat : List Char → Option Nat
  | [] => none
  | cs =>
    if cs.all Char.isDigit then
      some (cs.foldl (fun acc c => acc * 10 + (c.toNat - '0'.toNat)) 0)
    else none

/-- Python `int()` on a clock component: optional sign then digits. -/
def parseInt (cs : List Char) : Option Int :=
  match cs with
  | '-' :: rest => (digitsToNat rest).map (fun n => -(n : Int))
  | '+' :: rest => (digitsToNat rest).map (fun n => (n : Int))
  | _ => (digitsToNat cs).map (fun n => (n : Int))

/-- `_to_minutes`: `clock.split(":")` must produce exactly two components,
each parsed as an int; result is `hours * 60 + minutes`.  Works on the
character list of the clock string. -/
def to_minutes (clock : List Char) : Option Int :=
  match splitChar ':' clock with
  | [hours, minutes] => do
    pure ((← parseInt hours) * 60 + (← parseInt minutes))
  | _ => none

/-- `TimeInterval.parse`: `interval_str.split("-")` into exactly two clock
strings, each converted to minutes. -/
def TimeInterval.parse (s : String) : Option TimeInterval :=
  match splitChar '-' s.data with
  | [a, b] => do
    pure ⟨← to_minutes a, ← to_minutes b⟩
  | _ => none

/-- `block_minutes`: start/end minutes of each canonical block.  The Python
function raises `KeyError` outside `0..8`; callers only pass members of
`BLOCKS`, and the default row here is never consulted by the theorems. -/
def block_minutes : Nat → TimeInterval
  | 0 => ⟨8 * 60, 9 * 60⟩
  | 1 => ⟨9 * 60, 10 * 60⟩
  | 2 => ⟨10 * 60, 11 * 60⟩
  | 3 => ⟨11 * 60, 12 * 60⟩
  | 4 => ⟨12 * 60, 13 * 60⟩
  | 5 => ⟨14 * 60, 15 * 60⟩
  | 6 => ⟨15 * 60, 16 * 60⟩
  | 7 => ⟨16 * 60, 17 * 60⟩
  | 8 => ⟨17 * 60, 18 * 60⟩
  | _ => ⟨0, 0⟩

/-- `TimeInterval.contains_block`: the hour block lies fully inside the
interval. -/
def TimeInterval.contains_block (iv : TimeInterval) (block : Nat) : Bool :=
  decide (iv.start_minutes ≤ (block_minutes block).start_minutes) &&
    decide ((block_minutes block).end_minutes ≤ iv.end_minutes)

/-- The list comprehension `[TimeInterval.parse(i) for i in intervals]`:
all-or-nothing parsing (a Python exception propagates). -/
def parseAll : List String → Option (List TimeInterval)
  | [] => some []
  | s :: rest =>
    match TimeInterval.parse s, parseAll rest with
    | some iv, some ivs => some (iv :: ivs)
    | _, _ => none

/-- `intervals_to_block_set`: the set of block indices covered by some
interval, represented canonically as the sublist of `BLOCKS` whose members
are covered. -/
def intervals_to_block_set (intervals : List String) : Option (List Nat) :=
  (parseAll intervals).map
    (fun ivs => BLOCKS.filter (fun b => ivs.any (fun iv => iv.contains_block b)))

/-- `consecutive_segments`: morning `[0..4]` and afternoon `[5..8]`. -/
def consecutive_segments : List (List Nat) :=
  [[0, 1, 2, 3, 4], [5, 6, 7, 8]]

/-! ## Instance data model (`data_loader.py`) -/

/-- The `PinnedSession` dataclass. -/
structure PinnedSession where
  day : String
  block : Nat
deriving DecidableEq, Repr

/-- The `Therapist` dataclass.  `specialties` is a Python set and
`availability` a dict of day to block set. -/
structure Therapist where
  id : String
  specialties : List String
  availability : List (String × List Nat)
deriving DecidableEq, Repr

/-- The `Patient` dataclass. -/
structure Patient where
  id : String
  therapies : List (String × Int)
  availability : List (String × List Nat)
  max_continuous_hours : Int
  no_same_day_therapies : List String
  fixed_therapists : List (String × List (String × List String))
  pinned_sessions : List (String × List PinnedSession)
deriving DecidableEq, Repr

/-- The `Room` dataclass. -/
structure Room where
  id : String
  therapies : List String
  capacity : Int
deriving DecidableEq, Repr

/-- The `TherapyInfo` dataclass. -/
structure TherapyInfo where
  requirements : List (String × Int)
  min_patients : Int
  max_patients : Int
deriving DecidableEq, Repr

/-- The `Instance` dataclass. -/
structure Instance where
  therapists : List Therapist
  patients : List Patient
  rooms : List Room
  specialties : List String
  therapies : List (String × TherapyInfo)
deriving DecidableEq, Repr

/-! ## Variable builder (`model.py`, `build_base_variables`) -/

/-- Key of a `session_active` variable: `(therapy, room, day, block)`. -/
structure SKey where
  tid : String
  rid : String
  day : String
  block : Nat
deriving DecidableEq, Repr

/-- Key of a `patient_in_session` variable:
`(patient, therapy, room, day, block)`. -/
structure PSKey where
  pid : String
  tid : String
  rid : String
  day : String
  block : Nat
deriving DecidableEq, Repr

/-- Key of a `staff` variable:
`(therapist, therapy, room, day, block, specialty)`. -/
structure StKey where
  thid : String
  tid : String
  rid : String
  day : String
  block : Nat
  specialty : String
deriving DecidableEq, Repr

/-- Helper for the patient loop of `build_base_variables`: the blocks the
patient pinned for this therapy on this day
(`pinned_by_therapy.get(therapy_id, {}).get(day, set())`). -/
def pinnedBlocksFor (p : Patient) (tid day : String) : List Nat :=
  ((p.pinned_sessions.lookup tid).getD []).filterMap
    (fun s => if s.day = day then some s.block else none)

/-- The block set iterated by the patient loop:
`blocks = set(availability.get(day, set())); blocks.update(pinned ...)`.
`dedup` models the set union. -/
def candidateBlocks (p : Patient) (tid day : String) : List Nat :=
  ((p.availability.lookup day).getD [] ++ pinnedBlocksFor p tid day).dedup

/-- All `staff` variable keys, in creation order: the first loop of
`build_base_variables` ranges over therapies, compatible rooms, days,
blocks, required specialties and therapists holding the specialty who are
available in that block.  (The `if staff_key in staffing: continue` guard
is the `dedup` in `staffKeys`.) -/
def staffKeysRaw (inst : Instance) : List StKey :=
  inst.therapies.flatMap (fun tp =>
    inst.rooms.flatMap (fun room =>
      if tp.1 ∈ room.therapies then
        DAY_ORDER.flatMap (fun day =>
          BLOCKS.flatMap (fun b =>
            tp.2.requirements.flatMap (fun sr =>
              inst.therapists.filterMap (fun th =>
                if sr.1 ∈ th.specialties ∧ b ∈ (th.availability.lookup day).getD [] then
                  some ⟨th.id, tp.1, room.id, day, b, sr.1⟩
                else none))))
      else []))

/-- `staffing` table keys (Python dict keys are unique). -/
def staffKeys (inst : Instance) : List StKey :=
  (staffKeysRaw inst).dedup

/-- All `session_active` keys passed to `get_session_var`, in order: the
first loop requests one for every (therapy, compatible room, day, block);
the patient loop additionally requests one for every candidate
patient slot in a compatible room. -/
def sessionKeysRaw (inst : Instance) : List SKey :=
  (inst.therapies.flatMap (fun tp =>
    inst.rooms.flatMap (fun room =>
      if tp.1 ∈ room.therapies then
        DAY_ORDER.flatMap (fun day => BLOCKS.map (fun b => ⟨tp.1, room.id, day, b⟩))
      else [])))
  ++ (inst.patients.flatMap (fun p =>
        p.therapies.flatMap (fun tu =>
          if tu.2 > 0 then
            DAY_ORDER.flatMap (fun day =>
              (candidateBlocks p tu.1 day).flatMap (fun b =>
                inst.rooms.filterMap (fun room =>
                  if tu.1 ∈ room.therapies then some ⟨tu.1, room.id, day, b⟩ else none)))
          else [])))

/-- `session_active` table keys (`get_session_var` inserts only when the
key is absent, so the table's keys are the deduplicated request list). -/
def sessionKeys (inst : Instance) : List SKey :=
  (sessionKeysRaw inst).dedup

/-- All `patient_in_session` keys created by the patient loop of
`build_base_variables`. -/
def patientKeysRaw (inst : Instance) : List PSKey :=
  inst.patients.flatMap (fun p =>
    p.therapies.flatMap (fun tu =>
      if tu.2 > 0 then
        DAY_ORDER.flatMap (fun day =>
          (candidateBlocks p tu.1 day).flatMap (fun b =>
            inst.rooms.filterMap (fun room =>
              if tu.1 ∈ room.therapies then some ⟨p.id, tu.1, room.id, day, b⟩ else none)))
      else []))

/-- `patient_sessions` table keys (Python dict keys are unique). -/
def patientSessionKeys (inst : Instance) : List PSKey :=
  (patientKeysRaw inst).dedup

/-! ## Staffing-requirement constraints (`SchedulerModel._staffing_requirements`,
primary mode: `diagnostic_mode is None`, so no slack and no assumption
literal is attached) -/

/-- A constraint emitted by `_staffing_requirements` in the primary model:
either `Σ staff_vars == required * session_active[S]` over the candidate
staff variables, or `session_active[S] == 0` when no candidates exist and
the requirement is positive. -/
inductive StaffingConstraint where
  | sumEq (sk : SKey) (specialty : String) (required : Int) (staff_vars : List StKey)
  | forceInactive (sk : SKey) (specialty : String)
deriving DecidableEq, Repr

/-- The candidate staff variables for one session key and specialty: the
filter in `_staffing_requirements`. -/
def staffVarsFor (inst : Instance) (sk : SKey) (specialty : String) : List StKey :=
  (staffKeys inst).filter (fun k =>
    k.tid == sk.tid && k.rid == sk.rid && k.day == sk.day &&
      k.block == sk.block && k.specialty == specialty)

/-- The constraints emitted by `_staffing_requirements` in the primary
model, in emission order.  `self.instance.therapies[therapy_id]` raises
`KeyError` when the therapy is unknown; such session keys (impossible for
a validated instance) contribute nothing here, and the theorems restrict
to keys whose lookup succeeds. -/
def staffing_requirements (inst : Instance) : List StaffingConstraint :=
  (sessionKeys inst).flatMap (fun sk =>
    match inst.therapies.lookup sk.tid with
    | none => []
    | some info =>
      info.requirements.flatMap (fun sr =>
        let staff_vars := staffVarsFor inst sk sr.1
        if staff_vars ≠ [] then [.sumEq sk sr.1 sr.2 staff_vars]
        else if sr.2 > 0 then [.forceInactive sk sr.1]
        else []))

/-! ## Schedule extraction and sorting (`SchedulerModel.solve`) -/

/-- One staff entry of a session record:
`{"therapist_id": ..., "specialty": ...}`. -/
structure StaffEntry where
  therapist_id : String
  specialty : String
deriving DecidableEq, Repr

/-- One session record emitted by `solve` on a feasible solution. -/
structure SessionRecord where
  therapy_id : String
  room_id : String
  day : String
  time : String
  patient_ids : List String
  staff : List StaffEntry
deriving DecidableEq, Repr

/-- Insert into a list sorted by the boolean relation `le`. -/
def insertLe {α : Type} (le : α → α → Bool) (a : α) : List α → List α
  | [] => [a]
  | b :: bs => if le a b then a :: b :: bs else b :: insertLe le a bs

/-- Insertion sort by the boolean relation `le`; stands in for Python's
`sorted`/`list.sort` (only sortedness of the result matters to the
claims). -/
def sortLe {α : Type} (le : α → α → Bool) : List α → List α
  | [] => []
  | a :: rest => insertLe le a (sortLe le rest)

/-- Python compares strings by code points; Lean's lexicographic order on
`List Char` (ordered by code point) is the same order, and its
`Decidable` instances evaluate. -/
def strDataLe (a b : String) : Bool :=
  decide (a.data ≤ b.data)

/-- The sort key of `schedule.sort` in `solve`:
`(DAY_ORDER.index(day), time, room_id, therapy_id)`, as a lexicographic
tuple.  (`DAY_ORDER.index` raises for a day outside the calendar; every
schedule day comes from a `DAY_ORDER` loop, and `List.indexOf` agrees on
that domain.) -/
def recKey (r : SessionRecord) : Nat ×ₗ (List Char ×ₗ (List Char ×ₗ List Char)) :=
  toLex (DAY_ORDER.indexOf r.day,
    toLex (r.time.data, toLex (r.room_id.data, r.therapy_id.data)))

/-- Boolean comparison of records by `recKey`. -/
def recordLe (a b : SessionRecord) : Bool :=
  decide (recKey a ≤ recKey b)

/-- The sort key `(specialty, therapist_id)` of the staff list. -/
def staffSortKey (s : StaffEntry) : List Char ×ₗ List Char :=
  toLex (s.specialty.data, s.therapist_id.data)

/-- Boolean comparison of staff entries by `staffSortKey`. -/
def staffLe (x y : StaffEntry) : Bool :=
  decide (staffSortKey x ≤ staffSortKey y)

/-- The record-building loop of `solve` on an OPTIMAL/FEASIBLE solution,
parametrised by the solver's 0/1 valuation of the three variable
families (`solver.Value(var) == 1` becomes the boolean valuation
functions).  Active sessions become records with the attending patients
sorted by id, the staff sorted by (specialty, therapist id), and the
record list sorted by `recKey`.  (`block_to_range` is total on every
block a session key can carry in a validated instance; the `getD`
default is never consulted there.) -/
def extract_schedule (inst : Instance)
    (sval : SKey → Bool) (pval : PSKey → Bool) (stval : StKey → Bool) :
    List SessionRecord :=
  sortLe recordLe
    ((sessionKeys inst).filterMap (fun sk =>
      if sval sk then
        some
          { therapy_id := sk.tid
            room_id := sk.rid
            day := sk.day
            time := (block_to_range sk.block).getD ""
            patient_ids := sortLe strDataLe
              ((patientSessionKeys inst).filterMap (fun k =>
                if k.tid == sk.tid && k.rid == sk.rid && k.day == sk.day &&
                    k.block == sk.block && pval k then
                  some k.pid
                else none))
            staff := sortLe staffLe
              ((staffKeys inst).filterMap (fun k =>
                if k.tid == sk.tid && k.rid == sk.rid && k.day == sk.day &&
                    k.block == sk.block && stval k then
                  some (⟨k.thid, k.specialty⟩ : StaffEntry)
                else none)) }
      else none))

/-! ## Result assembly (`SchedulerModel.solve` tail,
`_flatten_diagnostics`) -/

/-- The `diagnostics_by_method` mapping with its three fixed keys. -/
structure DiagnosticsByMethod where
  assumptions : List String
  prechecks : List String
  soft : List String
deriving DecidableEq, Repr

/-- The empty mapping (`{}` before any diagnostic run). -/
def emptyDiagnostics : DiagnosticsByMethod := ⟨[], [], []⟩

/-- `_flatten_diagnostics`: prefix every entry with its method name in the
fixed order `assumptions`, `prechecks`, `soft`. -/
def flatten_diagnostics (d : DiagnosticsByMethod) : List String :=
  d.assumptions.map (fun item => "assumptions: " ++ item)
    ++ d.prechecks.map (fun item => "prechecks: " ++ item)
    ++ d.soft.map (fun item => "soft: " ++ item)

/-- The `SolveResult` dataclass. -/
structure SolveResult where
  status : String
  objective_value : Int
  schedule : List SessionRecord
  diagnostics : List String
  diagnostics_by_method : DiagnosticsByMethod
deriving DecidableEq, Repr

/-- `_status_name`: the CP-SAT status lookup with default "UNKNOWN".
CP-SAT encodes UNKNOWN=0, MODEL_INVALID=1, FEASIBLE=2, INFEASIBLE=3,
OPTIMAL=4. -/
def status_name (code : Nat) : String :=
  if code = 0 then "UNKNOWN"
  else if code = 1 then "MODEL_INVALID"
  else if code = 2 then "FEASIBLE"
  else if code = 3 then "INFEASIBLE"
  else if code = 4 then "OPTIMAL"
  else "UNKNOWN"

/-- The tail of `solve` after the solver returns, parametrised by the
status code, the objective value, the schedule that the FEASIBLE/OPTIMAL
branch would extract, and the mapping `_run_diagnostics()` would
produce.  `schedule` and `diagnostics` start empty; the feasible branch
fills the schedule, the failure branch runs diagnostics and flattens
them. -/
def assemble_result (code : Nat) (obj : Int) (sched : List SessionRecord)
    (diag : DiagnosticsByMethod) : SolveResult :=
  if code = 2 ∨ code = 4 then
    ⟨status_name code, obj, sched, [], emptyDiagnostics⟩
  else if code = 3 ∨ code = 0 ∨ code = 1 then
    ⟨status_name code, obj, [], flatten_diagnostics diag, diag⟩
  else
    ⟨status_name code, obj, [], [], emptyDiagnostics⟩

/-! ## Soft-slack message cap (`SchedulerModel._limit_messages`) -/

/-- `_limit_messages`: a list of at most `limit` messages passes through
unchanged; a longer list is truncated to `limit` entries plus a single
"...and N more" tail. -/
def limit_messages (messages : List String) (limit : Nat := 20) : List String :=
  if messages.length ≤ limit then messages
  else messages.take limit ++ ["...and " ++ toString (messages.length - limit) ++ " more"]

/-! ## Instance validation (`data_loader.py`, `_validate_instance`)

Each constructor below corresponds to one `raise ValueError` site, in
source order, carrying the interpolated identifiers.  Note that the room
checks (`capacity < 1`, unknown room therapy) and the availability-day
checks that appear textually in `data_loader.py` are unreachable: they
sit after the `return` statement of `_parse_fixed_therapists` (lines
311-324), outside `_validate_instance`, so the executed validator never
performs them.  The embedding mirrors the executed code. -/

inductive ValidationError where
  | duplicateTherapistIds
  | duplicatePatientIds
  | duplicateRoomIds
  | unknownTherapistSpecialty (specialty thid : String)
  | invalidPatientBounds (tid : String)
  | missingRequirements (tid : String)
  | unknownRequirementSpecialty (specialty tid : String)
  | nonpositiveRequirement (tid specialty : String)
  | fixedUnknownTherapy (pid tid : String)
  | fixedSpecialtyNotRequired (pid tid specialty : String)
  | fixedTooMany (pid tid specialty : String)
  | fixedRepeated (pid tid specialty : String)
  | fixedUnknownTherapist (pid tid thid : String)
  | fixedTherapistLacksSpecialty (pid tid specialty thid : String)
  | unknownPatientTherapy (pid tid : String)
  | negativeRequirement (pid tid : String)
  | unknownNoSameDayTherapy (pid tid : String)
  | unknownPinnedTherapy (pid tid : String)
  | pinsWithoutRequirement (pid tid : String)
  | tooManyPins (pid tid : String)
  | invalidPinDay (pid tid day : String)
  | invalidPinBlock (pid tid : String) (block : Nat)
  | repeatedPin (pid tid day : String) (block : Nat)
deriving DecidableEq, Repr

/-- Python `len(set(xs)) != len(xs)`. -/
def hasDup (l : List String) : Bool :=
  l.dedup.length != l.length

/-- The therapy loop of `_validate_instance`: patient bounds, non-empty
requirements, known specialties, positive counts. -/
def checkTherapy (specialties : List String) (tp : String × TherapyInfo) :
    Option ValidationError :=
  if tp.2.min_patients < 1 ∨ tp.2.max_patients < tp.2.min_patients then
    some (.invalidPatientBounds tp.1)
  else if tp.2.requirements = [] then
    some (.missingRequirements tp.1)
  else
    tp.2.requirements.findSome? (fun sr =>
      if sr.1 ∉ specialties then some (.unknownRequirementSpecialty sr.1 tp.1)
      else if sr.2 ≤ 0 then some (.nonpositiveRequirement tp.1 sr.1)
      else none)

/-- The fixed-therapists loop of `_validate_instance` for one patient. -/
def checkFixed (inst : Instance) (therapist_ids : List String) (p : Patient) :
    Option ValidationError :=
  p.fixed_therapists.findSome? (fun tf =>
    match inst.therapies.lookup tf.1 with
    | none => some (.fixedUnknownTherapy p.id tf.1)
    | some info =>
      tf.2.findSome? (fun sv =>
        if sv.1 ∉ info.requirements.map Prod.fst then
          some (.fixedSpecialtyNotRequired p.id tf.1 sv.1)
        else
          let required_count := (info.requirements.lookup sv.1).getD 0
          if (sv.2.length : Int) > required_count then
            some (.fixedTooMany p.id tf.1 sv.1)
          else if hasDup sv.2 then
            some (.fixedRepeated p.id tf.1 sv.1)
          else
            sv.2.findSome? (fun thid =>
              if thid ∉ therapist_ids then
                some (.fixedUnknownTherapist p.id tf.1 thid)
              else
                match inst.therapists.find? (fun th => th.id == thid) with
                | some th =>
                  if sv.1 ∉ th.specialties then
                    some (.fixedTherapistLacksSpecialty p.id tf.1 sv.1 thid)
                  else none
                | none => none)))

/-- The pinned-slot loop of `_validate_instance`: day in calendar, block
in range, no repeated `(day, block)` (the Python `seen` set). -/
def checkSlots (pid tid : String) :
    List PinnedSession → List (String × Nat) → Option ValidationError
  | [], _ => none
  | slot :: rest, seen =>
    if slot.day ∉ DAY_ORDER then some (.invalidPinDay pid tid slot.day)
    else if slot.block ∉ BLOCKS then some (.invalidPinBlock pid tid slot.block)
    else if (slot.day, slot.block) ∈ seen then
      some (.repeatedPin pid tid slot.day slot.block)
    else checkSlots pid tid rest ((slot.day, slot.block) :: seen)

/-- The second per-patient loop of `_validate_instance`: patient therapy
references and counts, `no_same_day_therapies` references, pinned
sessions. -/
def checkPatientTherapies (inst : Instance) (p : Patient) :
    Option ValidationError :=
  (p.therapies.findSome? (fun tu =>
    if (inst.therapies.lookup tu.1).isNone then
      some (.unknownPatientTherapy p.id tu.1)
    else if tu.2 < 0 then some (.negativeRequirement p.id tu.1)
    else none))
  <|> (p.no_same_day_therapies.findSome? (fun tid =>
    if (inst.therapies.lookup tid).isNone then
      some (.unknownNoSameDayTherapy p.id tid)
    else none))
  <|> (p.pinned_sessions.findSome? (fun ts =>
    if (inst.therapies.lookup ts.1).isNone then
      some (.unknownPinnedTherapy p.id ts.1)
    else
      let required := (p.therapies.lookup ts.1).getD 0
      if required ≤ 0 then some (.pinsWithoutRequirement p.id ts.1)
      else if (ts.2.length : Int) > required then some (.tooManyPins p.id ts.1)
      else checkSlots p.id ts.1 ts.2 []))

/-- `_validate_instance`: `none` means the instance is accepted (the
Python function returns), `some e` that the first failing check raises
`e`.  The checks appear in source order; no room check occurs (see the
note above). -/
def validate_instance (inst : Instance) : Option ValidationError :=
  let therapist_ids := inst.therapists.map Therapist.id
  if hasDup therapist_ids then some .duplicateTherapistIds
  else if hasDup (inst.patients.map Patient.id) then some .duplicatePatientIds
  else if hasDup (inst.rooms.map Room.id) then some .duplicateRoomIds
  else
    (inst.therapists.findSome? (fun th =>
      th.specialties.findSome? (fun s =>
        if s ∉ inst.specialties then some (.unknownTherapistSpecialty s th.id)
        else none)))
    <|> (inst.therapies.findSome? (checkTherapy inst.specialties))
    <|> (inst.patients.findSome? (checkFixed inst therapist_ids))
    <|> (inst.patients.findSome? (checkPatientTherapies inst))

/-! ## Precheck diagnostics (`SchedulerModel._diagnose_infeasibility`)

Structured embedding: each constructor of `PrecheckMsg` corresponds to one
`messages.append(...)` site, in source order, carrying the interpolated
data (rendering details such as the per-day breakdown string of the
slot-shortfall message are presentation only and not modelled). -/

inductive PrecheckMsg where
  | fixedUnknownTherapy (pid tid : String)
  | fixedSpecialtyNotRequired (pid tid specialty : String)
  | fixedTooMany (pid tid specialty : String) (count : Nat) (required : Int)
  | fixedRepeat (pid tid specialty : String)
  | fixedUnknownTherapist (pid tid thid : String)
  | fixedLacksSpecialty (thid specialty pid tid : String)
  | fixedNoSlots (pid thid tid specialty : String)
  | pinNoSlot (pid tid day : String) (block : Nat)
  | needNoRooms (pid tid : String)
  | noAvailability (pid tid : String)
  | slotShortfall (pid tid : String) (required : Int) (total : Nat)
  | weekCap (pid tid : String) (maxPerWeek : Nat) (required : Int)
  | therapyNoRoom (tid : String)
  | therapyNoSlots (tid : String)
  | staffNoSlots (tid specialty : String)
  | fallback
deriving DecidableEq, Repr

/-- `therapy_slots_total[(pid, tid)]`: candidate `patient_in_session`
variables for the pair (0 when the pair never occurs, matching
`dict.get(..., 0)`). -/
def therapySlotsTotal (inst : Instance) (pid tid : String) : Nat :=
  (patientSessionKeys inst).countP (fun k => k.pid == pid && k.tid == tid)

/-- `therapy_slots_by_day[(pid, tid, day)]`. -/
def therapySlotsByDay (inst : Instance) (pid tid day : String) : Nat :=
  (patientSessionKeys inst).countP
    (fun k => k.pid == pid && k.tid == tid && k.day == day)

/-- `therapy_global_slots[tid]`. -/
def therapyGlobalSlots (inst : Instance) (tid : String) : Nat :=
  (patientSessionKeys inst).countP (fun k => k.tid == tid)

/-- `staff_slots[(tid, specialty)]`. -/
def staffSlots (inst : Instance) (tid specialty : String) : Nat :=
  (staffKeys inst).countP (fun k => k.tid == tid && k.specialty == specialty)

/-- `rooms_by_therapy.get(tid, [])`: ids of the rooms allowing the
therapy. -/
def roomsByTherapy (inst : Instance) (tid : String) : List String :=
  inst.rooms.filterMap (fun r => if tid ∈ r.therapies then some r.id else none)

/-- `required_patients_by_therapy.get(tid, 0)`: per patient-therapy entry
with positive requirement. -/
def requiredPatientsByTherapy (inst : Instance) (tid : String) : Nat :=
  (inst.patients.map (fun p =>
    p.therapies.countP (fun tu => tu.1 == tid && decide (tu.2 > 0)))).sum

/-- `sum(min(1, therapy_slots_by_day...) for day in DAY_ORDER)`: the
week-capacity with the no-same-day rule, i.e. the number of days with at
least one candidate slot. -/
def weekCapacity (inst : Instance) (pid tid : String) : Nat :=
  (DAY_ORDER.map (fun day => min 1 (therapySlotsByDay inst pid tid day))).sum

/-- Whether some candidate `patient_in_session` slot for `(p, tid)` has a
matching `staff` variable for the fixed therapist and specialty (the
`has_slot` search of the fixed-therapists precheck). -/
def hasCompatibleSlot (inst : Instance) (pid tid thid specialty : String) : Bool :=
  (patientSessionKeys inst).any (fun k =>
    k.pid == pid && k.tid == tid &&
      decide ((⟨thid, tid, k.rid, k.day, k.block, specialty⟩ : StKey) ∈ staffKeys inst))

/-- The fixed-therapists section of `_diagnose_infeasibility`
(`for patient ...: for therapy_id, fixed in patient.fixed_therapists...`). -/
def precheckFixedMsgs (inst : Instance) : List PrecheckMsg :=
  inst.patients.flatMap (fun p =>
    p.fixed_therapists.flatMap (fun tf =>
      if tf.2 = [] then []
      else
        match inst.therapies.lookup tf.1 with
        | none => [.fixedUnknownTherapy p.id tf.1]
        | some info =>
          tf.2.flatMap (fun sv =>
            let ids := sv.2.filter (fun s => s ≠ "")
            if sv.2 = [] then []
            else if ids = [] then []
            else
              let required_count := (info.requirements.lookup sv.1).getD 0
              if required_count = 0 then
                [.fixedSpecialtyNotRequired p.id tf.1 sv.1]
              else
                (if (ids.length : Int) > required_count then
                  [.fixedTooMany p.id tf.1 sv.1 ids.length required_count]
                 else [])
                ++ (if hasDup ids then [.fixedRepeat p.id tf.1 sv.1] else [])
                ++ ids.flatMap (fun thid =>
                  match inst.therapists.find? (fun th => th.id == thid) with
                  | none => [.fixedUnknownTherapist p.id tf.1 thid]
                  | some th =>
                    if sv.1 ∉ th.specialties then
                      [.fixedLacksSpecialty thid sv.1 p.id tf.1]
                    else if hasCompatibleSlot inst p.id tf.1 thid sv.1 then []
                    else [.fixedNoSlots p.id thid tf.1 sv.1]))))

/-- The pinned-sessions section of `_diagnose_infeasibility`. -/
def precheckPinMsgs (inst : Instance) : List PrecheckMsg :=
  inst.patients.flatMap (fun p =>
    p.pinned_sessions.flatMap (fun ts =>
      ts.2.flatMap (fun slot =>
        if (patientSessionKeys inst).any (fun k =>
            k.pid == p.id && k.tid == ts.1 && k.day == slot.day &&
              k.block == slot.block) then []
        else [.pinNoSlot p.id ts.1 slot.day slot.block])))

/-- The per-patient requirements section of `_diagnose_infeasibility`:
slot shortfalls, and — only when enough total slots exist — the
no-same-day week-capacity check. -/
def precheckPatientReqMsgs (inst : Instance) : List PrecheckMsg :=
  inst.patients.flatMap (fun p =>
    p.therapies.flatMap (fun tu =>
      if tu.2 ≤ 0 then []
      else
        let rooms_for_therapy := roomsByTherapy inst tu.1
        let availability_blocks := (p.availability.map (fun e => e.2.dedup.length)).sum
        let total_slots := therapySlotsTotal inst p.id tu.1
        if (total_slots : Int) < tu.2 then
          (if total_slots = 0 then
            (if rooms_for_therapy = [] then [.needNoRooms p.id tu.1] else [])
            ++ (if availability_blocks = 0 then [.noAvailability p.id tu.1] else [])
           else [])
          ++ (if total_slots > 0 ∨ (rooms_for_therapy ≠ [] ∧ availability_blocks > 0) then
                [.slotShortfall p.id tu.1 tu.2 total_slots]
              else [])
        else
          if tu.1 ∈ p.no_same_day_therapies then
            if (weekCapacity inst p.id tu.1 : Int) < tu.2 then
              [.weekCap p.id tu.1 (weekCapacity inst p.id tu.1) tu.2]
            else []
          else []))

/-- The per-therapy section of `_diagnose_infeasibility`. -/
def precheckTherapyMsgs (inst : Instance) : List PrecheckMsg :=
  inst.therapies.flatMap (fun tp =>
    if roomsByTherapy inst tp.1 = [] then [.therapyNoRoom tp.1]
    else
      (if therapyGlobalSlots inst tp.1 = 0 ∧ requiredPatientsByTherapy inst tp.1 > 0 then
        [.therapyNoSlots tp.1]
       else [])
      ++ tp.2.requirements.flatMap (fun sr =>
        if staffSlots inst tp.1 sr.1 = 0 then [.staffNoSlots tp.1 sr.1] else []))

/-- `_diagnose_infeasibility`: the four sections in source order, with the
generic fallback message when nothing else was reported. -/
def diagnose_infeasibility (inst : Instance) : List PrecheckMsg :=
  let messages :=
    precheckFixedMsgs inst ++ precheckPinMsgs inst
      ++ precheckPatientReqMsgs inst ++ precheckTherapyMsgs inst
  if messages = [] then [.fallback] else messages

/-- Recognizer for the week-capacity shortfall message. -/
def isWeekCap : PrecheckMsg → Bool
  | .weekCap _ _ _ _ => true
  | _ => false

/-! ## Concrete example instances used by counterexamples and witnesses -/

/-- An instance whose only room has capacity 0 and references a therapy id
absent from `therapies`; it violates the Room invariants of the spec. -/
def badRoomInst : Instance :=
  { therapists := []
    patients := []
    rooms := [⟨"R1", ["ghost"], 0⟩]
    specialties := []
    therapies := [] }

/-- A minimal well-formed instance: one therapy, one compatible room, one
therapist, one patient. -/
def exInst : Instance :=
  { therapists := [⟨"T1", ["lang"], [("Monday", [0, 1])]⟩]
    patients := [⟨"P1", [("speech", 1)], [("Monday", [0, 1])], 3, [], [], []⟩]
    rooms := [⟨"R1", ["speech"], 1⟩]
    specialties := ["lang"]
    therapies := [("speech", ⟨[("lang", 1)], 1, 1⟩)] }

/-- A patient who needs two `speech` sessions under `no_same_day` but has
only a single feasible slot in the whole week. -/
def cexPatient : Patient :=
  ⟨"P1", [("speech", 2)], [("Monday", [0])], 3, ["speech"], [], []⟩

/-- Instance around `cexPatient`: one day with one feasible slot, so the
number of days with a feasible slot (1) is below the requirement (2),
while the total slot count (1) is also below the requirement. -/
def cexInst : Instance :=
  { therapists := []
    patients := [cexPatient]
    rooms := [⟨"R1", ["speech"], 1⟩]
    specialties := ["lang"]
    therapies := [("speech", ⟨[("lang", 1)], 1, 1⟩)] }

/-- A patient with two feasible slots on the same single day, needing two
`no_same_day` sessions: total slots suffice but the week capacity does
not. -/
def cexPatient2 : Patient :=
  ⟨"P1", [("speech", 2)], [("Monday", [0, 1])], 3, ["speech"], [], []⟩

/-- Instance around `cexPatient2`. -/
def cexInst2 : Instance :=
  { therapists := []
    patients := [cexPatient2]
    rooms := [⟨"R1", ["speech"], 1⟩]
    specialties := ["lang"]
    therapies := [("speech", ⟨[("lang", 1)], 1, 1⟩)] }

/-! ## Helper lemmas on the insertion sort -/

theorem mem_insertLe {α : Type} (le : α → α → Bool) (a x : α) (l : List α) :
    x ∈ insertLe le a l ↔ x = a ∨ x ∈ l := by
  induction l with
  | nil => simp [insertLe]
  | cons b bs ih =>
    simp only [insertLe]
    by_cases h : le a b = true
    · rw [if_pos h]
      simp [List.mem_cons]
    · rw [if_neg h]
      simp only [List.mem_cons, ih]
      tauto

theorem mem_sortLe {α : Type} (le : α → α → Bool) (x : α) (l : List α) :
    x ∈ sortLe le l ↔ x ∈ l := by
  induction l with
  | nil => simp [sortLe]
  | cons a rest ih =>
    simp only [sortLe, mem_insertLe, ih, List.mem_cons]

theorem pairwise_insertLe {α : Type} (le : α → α → Bool)
    (htr : ∀ a b c, le a b = true → le b c = true → le a c = true)
    (hto : ∀ a b, le a b = true ∨ le b a = true)
    (a : α) (l : List α) (h : l.Pairwise (fun x y => le x y = true)) :
    (insertLe le a l).Pairwise (fun x y => le x y = true) := by
  induction l with
  | nil => simp [insertLe]
  | cons b bs ih =>
    rcases List.pairwise_cons.1 h with ⟨hb, hbs⟩
    simp only [insertLe]
    by_cases hab : le a b = true
    · rw [if_pos hab]
      refine List.pairwise_cons.2 ⟨?_, h⟩
      intro x hx
      rcases List.mem_cons.1 hx with rfl | hx
      · exact hab
      · exact htr a b x hab (hb x hx)
    · rw [if_neg hab]
      refine List.pairwise_cons.2 ⟨?_, ih hbs⟩
      intro x hx
      rcases (mem_insertLe le a x bs).1 hx with hxa | hx
      · subst hxa
        rcases hto x b with h1 | h1
        · exact absurd h1 hab
        · exact h1
      · exact hb x hx

theorem pairwise_sortLe {α : Type} (le : α → α → Bool)
    (htr : ∀ a b c, le a b = true → le b c = true → le a c = true)
    (hto : ∀ a b, le a b = true ∨ le b a = true)
    (l : List α) : (sortLe le l).Pairwise (fun x y => le x y = true) := by
  induction l with
  | nil => simp [sortLe]
  | cons a rest ih => exact pairwise_insertLe le htr hto a (sortLe le rest) ih

theorem recordLe_trans (a b c : SessionRecord)
    (h1 : recordLe a b = true) (h2 : recordLe b c = true) : recordLe a c = true := by
  simp only [recordLe, decide_eq_true_eq] at h1 h2 ⊢
  exact le_trans h1 h2

theorem recordLe_total (a b : SessionRecord) :
    recordLe a b = true ∨ recordLe b a = true := by
  simp only [recordLe, decide_eq_true_eq]
  exact le_total _ _

theorem staffLe_trans (a b c : StaffEntry)
    (h1 : staffLe a b = true) (h2 : staffLe b c = true) : staffLe a c = true := by
  simp only [staffLe, decide_eq_true_eq] at h1 h2 ⊢
  exact le_trans h1 h2

theorem staffLe_total (a b : StaffEntry) :
    staffLe a b = true ∨ staffLe b a = true := by
  simp only [staffLe, decide_eq_true_eq]
  exact le_total _ _

theorem strDataLe_trans (a b c : String)
    (h1 : strDataLe a b = true) (h2 : strDataLe b c = true) : strDataLe a c = true := by
  simp only [strDataLe, decide_eq_true_eq] at h1 h2 ⊢
  exact le_trans h1 h2

theorem strDataLe_total (a b : String) :
    strDataLe a b = true ∨ strDataLe b a = true := by
  simp only [strDataLe, decide_eq_true_eq]
  exact le_total _ _

/-! ## C7: the nine canonical ranges -/

/-- C7: `range_to_block` inverts `block_to_range` on every block `0..8`,
and rejects every string that is not one of the nine canonical
`HH:MM-HH:MM` ranges. -/
theorem range_to_block_canonical (b : Nat) (hb : b < 9) (s : String)
    (hs : s ∉ BLOCK_TO_RANGE.map Prod.snd) :
    (∃ r, block_to_range b = some r ∧ range_to_block r = some b) ∧
      range_to_block s = none := by
  constructor
  · interval_cases b <;> exact ⟨_, rfl, rfl⟩
  · rw [range_to_block, List.lookup_eq_none_iff]
    intro p hp
    rcases List.mem_map.1 hp with ⟨q, hq, rfl⟩
    simp only [bne_iff_ne, ne_eq]
    intro hcontra
    exact hs (List.mem_map.2 ⟨q, hq, hcontra.symm⟩)

/-- Witness for C7 at block 3 and the non-canonical string "bogus". -/
theorem range_to_block_canonical_witness :
    (∃ r, block_to_range 3 = some r ∧ range_to_block r = some 3) ∧
      range_to_block "bogus" = none :=
  range_to_block_canonical 3 (by decide) "bogus" (by decide)

/-! ## C8: interval coverage of blocks -/

theorem parseAll_mem (I : List String) (ivs : List TimeInterval)
    (h : parseAll I = some ivs) (iv : TimeInterval) :
    iv ∈ ivs ↔ ∃ s ∈ I, TimeInterval.parse s = some iv := by
  induction I generalizing ivs with
  | nil =>
    have hne : ivs = [] := (Option.some.inj h).symm
    subst hne
    simp
  | cons s rest ih =>
    rw [show parseAll (s :: rest) =
        match TimeInterval.parse s, parseAll rest with
        | some iv, some ivs => some (iv :: ivs)
        | _, _ => none from rfl] at h
    cases hps : TimeInterval.parse s with
    | none => rw [hps] at h; simp at h
    | some iv0 =>
      cases hpr : parseAll rest with
      | none => rw [hps, hpr] at h; simp at h
      | some rest' =>
        rw [hps, hpr] at h
        simp only [Option.some.injEq] at h
        subst h
        simp only [List.mem_cons, ih rest' hpr]
        constructor
        · rintro (rfl | ⟨t, ht, hpt⟩)
          · exact ⟨s, Or.inl rfl, hps⟩
          · exact ⟨t, Or.inr ht, hpt⟩
        · rintro ⟨t, rfl | ht, hpt⟩
          · left
            rw [hps] at hpt
            exact (Option.some.inj hpt).symm
          · right; exact ⟨t, ht, hpt⟩

/-- C8: for a successfully parsed interval list, a block `b < 9` is in the
block set iff some interval of the list fully contains the block's hour
(interval start at or before the block start, interval end at or after
the block end). -/
theorem intervals_to_block_set_spec (I : List String) (S : List Nat) (b : Nat)
    (hb : b < 9) (hS : intervals_to_block_set I = some S) :
    b ∈ S ↔ ∃ s ∈ I, ∃ iv, TimeInterval.parse s = some iv ∧
      iv.start_minutes ≤ (block_minutes b).start_minutes ∧
      (block_minutes b).end_minutes ≤ iv.end_minutes := by
  unfold intervals_to_block_set at hS
  cases hp : parseAll I with
  | none => rw [hp] at hS; simp at hS
  | some ivs =>
    rw [hp] at hS
    simp only [Option.map, Option.bind, Option.some.injEq] at hS
    subst hS
    rw [List.mem_filter]
    have hbB : b ∈ BLOCKS := by
      simp only [BLOCKS, List.mem_cons, List.not_mem_nil]
      omega
    simp only [hbB, true_and, List.any_eq_true]
    constructor
    · rintro ⟨iv, hiv, hc⟩
      rcases (parseAll_mem I ivs hp iv).1 hiv with ⟨s, hsI, hps⟩
      simp only [TimeInterval.contains_block, Bool.and_eq_true, decide_eq_true_eq] at hc
      exact ⟨s, hsI, iv, hps, hc.1, hc.2⟩
    · rintro ⟨s, hsI, iv, hps, h1, h2⟩
      refine ⟨iv, (parseAll_mem I ivs hp iv).2 ⟨s, hsI, hps⟩, ?_⟩
      simp only [TimeInterval.contains_block, Bool.and_eq_true, decide_eq_true_eq]
      exact ⟨h1, h2⟩

/-- Witness for C8: the interval "08:00-10:00" covers block 1
(09:00-10:00). -/
theorem intervals_to_block_set_spec_witness :
    1 ∈ [0, 1] ↔ ∃ s ∈ ["08:00-10:00"], ∃ iv, TimeInterval.parse s = some iv ∧
      iv.start_minutes ≤ (block_minutes 1).start_minutes ∧
      (block_minutes 1).end_minutes ≤ iv.end_minutes :=
  intervals_to_block_set_spec ["08:00-10:00"] [0, 1] 1 (by decide) (by decide)

/-! ## C9: the soft-slack message cap -/

/-- C9: `_limit_messages` passes a list of at most 20 messages through
unchanged, truncates a longer list to its first 20 entries plus a single
"...and N more" tail with N the number dropped, and always returns at
most 21 entries. -/
theorem limit_messages_cap (M : List String) :
    (M.length ≤ 20 → limit_messages M = M) ∧
    (20 < M.length →
      limit_messages M = M.take 20 ++ ["...and " ++ toString (M.length - 20) ++ " more"]) ∧
    (limit_messages M).length ≤ 21 := by
  refine ⟨?_, ?_, ?_⟩
  · intro h
    unfold limit_messages
    rw [if_pos h]
  · intro h
    unfold limit_messages
    rw [if_neg (by omega)]
  · unfold limit_messages
    split
    · omega
    · simp only [List.length_append, List.length_take, List.length_singleton]
      omega

/-- Witness for C9 on a list of 21 messages: output is the first 20 plus
"...and 1 more". -/
theorem limit_messages_cap_witness :
    limit_messages (List.replicate 21 "m") =
      (List.replicate 21 "m").take 20 ++ ["...and " ++ toString ((List.replicate 21 "m").length - 20) ++ " more"] ∧
    limit_messages [] = ([] : List String) :=
  ⟨(limit_messages_cap (List.replicate 21 "m")).2.1 (by decide),
   (limit_messages_cap []).1 (by decide)⟩

/-! ## C10: shape of the SolveResult -/

/-- C10: on an OPTIMAL or FEASIBLE status the result carries no
diagnostics and an empty by-method mapping; on INFEASIBLE, UNKNOWN or
MODEL_INVALID the schedule is empty and `diagnostics` is the flattening
of `diagnostics_by_method` (method-name prefixes, fixed order
assumptions/prechecks/soft). -/
theorem solve_result_shape (code : Nat) (obj : Int) (sched : List SessionRecord)
    (diag : DiagnosticsByMethod) :
    ((assemble_result code obj sched diag).status = "OPTIMAL" ∨
        (assemble_result code obj sched diag).status = "FEASIBLE" →
      (assemble_result code obj sched diag).diagnostics = [] ∧
        (assemble_result code obj sched diag).diagnostics_by_method = emptyDiagnostics) ∧
    ((assemble_result code obj sched diag).status = "INFEASIBLE" ∨
        (assemble_result code obj sched diag).status = "UNKNOWN" ∨
        (assemble_result code obj sched diag).status = "MODEL_INVALID" →
      (assemble_result code obj sched diag).schedule = [] ∧
        (assemble_result code obj sched diag).diagnostics =
          flatten_diagnostics (assemble_result code obj sched diag).diagnostics_by_method) := by
  rcases Nat.lt_or_ge code 5 with h5 | h5
  · interval_cases code
    · exact ⟨fun h => by simp [assemble_result, status_name] at h,
        fun _ => ⟨rfl, rfl⟩⟩
    · exact ⟨fun h => by simp [assemble_result, status_name] at h,
        fun _ => ⟨rfl, rfl⟩⟩
    · exact ⟨fun _ => ⟨rfl, rfl⟩,
        fun h => by simp [assemble_result, status_name] at h⟩
    · exact ⟨fun h => by simp [assemble_result, status_name] at h,
        fun _ => ⟨rfl, rfl⟩⟩
    · exact ⟨fun _ => ⟨rfl, rfl⟩,
        fun h => by simp [assemble_result, status_name] at h⟩
  · have hno2 : ¬(code = 2 ∨ code = 4) := by omega
    have hno3 : ¬(code = 3 ∨ code = 0 ∨ code = 1) := by omega
    have ha : assemble_result code obj sched diag =
        ⟨status_name code, obj, [], [], emptyDiagnostics⟩ := by
      unfold assemble_result
      rw [if_neg hno2, if_neg hno3]
    have hs : status_name code = "UNKNOWN" := by
      unfold status_name
      rw [if_neg (by omega), if_neg (by omega), if_neg (by omega),
        if_neg (by omega), if_neg (by omega)]
    rw [ha, hs]
    refine ⟨fun h => ?_, fun _ => ⟨rfl, rfl⟩⟩
    simp at h

/-- Witness for C10 on an INFEASIBLE solve with nonempty diagnostics. -/
theorem solve_result_shape_witness :
    (assemble_result 3 0 [] ⟨["a"], ["b"], ["c"]⟩).schedule = [] ∧
      (assemble_result 3 0 [] ⟨["a"], ["b"], ["c"]⟩).diagnostics =
        flatten_diagnostics (assemble_result 3 0 [] ⟨["a"], ["b"], ["c"]⟩).diagnostics_by_method :=
  (solve_result_shape 3 0 [] ⟨["a"], ["b"], ["c"]⟩).2 (Or.inl rfl)

/-! ## C1: room invariants are not enforced by the executed validator -/

/-- C1 (code bug): `_validate_instance` accepts `badRoomInst` although its
only room has capacity 0 and references a therapy id that does not exist,
because the room checks in `data_loader.py` are dead code placed after
the `return` of `_parse_fixed_therapists`.  The claim (and the spec's
intent, matching the dead text) says such an instance must be refused. -/
theorem validate_instance_accepts_bad_room :
    validate_instance badRoomInst = none ∧
    ∃ r ∈ badRoomInst.rooms, r.capacity < 1 ∧
      ∃ tid ∈ r.therapies, (badRoomInst.therapies.lookup tid).isNone := by
  decide

/-! ## C2: session variables exist only for compatible (therapy, room) -/

theorem mem_ite_nil {α : Type} {c : Prop} [Decidable c] {l : List α} {x : α} :
    x ∈ (if c then l else []) ↔ c ∧ x ∈ l := by
  split <;> simp_all

/-- C2: every `session_active` key pairs a therapy with a room that allows
it, and hence every session record extracted from a feasible solution
uses a therapy allowed in its room (so the external room-permission guard
cannot fire on core output). -/
theorem session_room_compat (inst : Instance) :
    (∀ k ∈ sessionKeys inst,
      ∃ room ∈ inst.rooms, room.id = k.rid ∧ k.tid ∈ room.therapies) ∧
    (∀ sval pval stval, ∀ rec ∈ extract_schedule inst sval pval stval,
      ∃ room ∈ inst.rooms, room.id = rec.room_id ∧ rec.therapy_id ∈ room.therapies) := by
  have hkeys : ∀ k ∈ sessionKeys inst,
      ∃ room ∈ inst.rooms, room.id = k.rid ∧ k.tid ∈ room.therapies := by
    intro k hk
    unfold sessionKeys sessionKeysRaw at hk
    rw [List.mem_dedup, List.mem_append] at hk
    rcases hk with hk | hk
    · rcases List.mem_flatMap.1 hk with ⟨tp, _htp, hk⟩
      rcases List.mem_flatMap.1 hk with ⟨room, hroom, hk⟩
      rcases mem_ite_nil.1 hk with ⟨hc, hk⟩
      rcases List.mem_flatMap.1 hk with ⟨day, _hday, hk⟩
      rcases List.mem_map.1 hk with ⟨b, _hb, hkey⟩
      subst hkey
      exact ⟨room, hroom, rfl, hc⟩
    · rcases List.mem_flatMap.1 hk with ⟨p, _hp, hk⟩
      rcases List.mem_flatMap.1 hk with ⟨tu, _htu, hk⟩
      rcases mem_ite_nil.1 hk with ⟨_hpos, hk⟩
      rcases List.mem_flatMap.1 hk with ⟨day, _hday, hk⟩
      rcases List.mem_flatMap.1 hk with ⟨b, _hb, hk⟩
      rcases List.mem_filterMap.1 hk with ⟨room, hroom, hsome⟩
      by_cases hc2 : tu.1 ∈ room.therapies
      · rw [if_pos hc2] at hsome
        cases Option.some.inj hsome
        exact ⟨room, hroom, rfl, hc2⟩
      · rw [if_neg hc2] at hsome
        exact absurd hsome (by simp)
  refine ⟨hkeys, ?_⟩
  intro sval pval stval rec hrec
  unfold extract_schedule at hrec
  rw [mem_sortLe] at hrec
  rcases List.mem_filterMap.1 hrec with ⟨sk, hsk, hsome⟩
  by_cases hc : sval sk = true
  · rw [if_pos hc] at hsome
    cases Option.some.inj hsome
    rcases hkeys sk hsk with ⟨room, hroom, hid, hth⟩
    exact ⟨room, hroom, hid, hth⟩
  · rw [if_neg hc] at hsome
    exact absurd hsome (by simp)

/-- Witness for C2 at the minimal instance: the Monday-block-0 session key
of therapy `speech` has its room `R1`, which allows `speech`. -/
theorem session_room_compat_witness :
    ∃ room ∈ exInst.rooms, room.id = (⟨"speech", "R1", "Monday", 0⟩ : SKey).rid ∧
      (⟨"speech", "R1", "Monday", 0⟩ : SKey).tid ∈ room.therapies :=
  (session_room_compat exInst).1 ⟨"speech", "R1", "Monday", 0⟩ (by decide)

/-! ## C3: staffing exactness constraints -/

/-- C3: in the primary model, for every session key and every
`(specialty, required)` entry of the therapy's requirements, the emitted
constraint is `Σ staff_vars = required · session_active` over the
candidate staff variables when candidates exist, and `session_active = 0`
when none exist and the requirement is positive. -/
theorem staffing_exactness (inst : Instance) (sk : SKey) (info : TherapyInfo)
    (specialty : String) (required : Int)
    (hs : sk ∈ sessionKeys inst)
    (hl : inst.therapies.lookup sk.tid = some info)
    (hr : (specialty, required) ∈ info.requirements) :
    (staffVarsFor inst sk specialty ≠ [] →
      StaffingConstraint.sumEq sk specialty required (staffVarsFor inst sk specialty) ∈
        staffing_requirements inst) ∧
    (staffVarsFor inst sk specialty = [] → 0 < required →
      StaffingConstraint.forceInactive sk specialty ∈ staffing_requirements inst) := by
  constructor
  · intro hne
    unfold staffing_requirements
    refine List.mem_flatMap.2 ⟨sk, hs, ?_⟩
    rw [hl]
    refine List.mem_flatMap.2 ⟨(specialty, required), hr, ?_⟩
    show _ ∈ (if staffVarsFor inst sk specialty ≠ [] then
        [StaffingConstraint.sumEq sk specialty required (staffVarsFor inst sk specialty)]
      else if required > 0 then [StaffingConstraint.forceInactive sk specialty] else [])
    rw [if_pos hne]
    exact List.mem_singleton.2 rfl
  · intro hemp hpos
    unfold staffing_requirements
    refine List.mem_flatMap.2 ⟨sk, hs, ?_⟩
    rw [hl]
    refine List.mem_flatMap.2 ⟨(specialty, required), hr, ?_⟩
    show _ ∈ (if staffVarsFor inst sk specialty ≠ [] then
        [StaffingConstraint.sumEq sk specialty required (staffVarsFor inst sk specialty)]
      else if required > 0 then [StaffingConstraint.forceInactive sk specialty] else [])
    rw [if_neg (not_not_intro hemp), if_pos hpos]
    exact List.mem_singleton.2 rfl

/-- Witness for C3: at the minimal instance, the Monday-block-0 `speech`
session has a candidate `lang` staff variable (therapist T1), so the
sum-equality constraint is emitted for it. -/
theorem staffing_exactness_witness :
    StaffingConstraint.sumEq ⟨"speech", "R1", "Monday", 0⟩ "lang" 1
        (staffVarsFor exInst ⟨"speech", "R1", "Monday", 0⟩ "lang") ∈
      staffing_requirements exInst :=
  (staffing_exactness exInst ⟨"speech", "R1", "Monday", 0⟩ ⟨[("lang", 1)], 1, 1⟩
    "lang" 1 (by decide) (by decide) (by decide)).1 (by decide)

/-! ## C4: existence condition of patient_in_session variables -/

/-- C4: for a calendar day `d`, a `patient_in_session` key
`(pid, u, rid, d, b)` exists iff some patient with id `pid` requires a
positive number of `u` sessions, some room with id `rid` allows `u`, and
the block is either in the patient's availability for `d` or pinned by
the patient for `(u, d)` — so pinned slots get variables even outside the
stated availability. -/
theorem patient_variable_iff (inst : Instance) (pid u rid d : String) (b : Nat)
    (hd : d ∈ DAY_ORDER) :
    (⟨pid, u, rid, d, b⟩ : PSKey) ∈ patientSessionKeys inst ↔
      ∃ p ∈ inst.patients, p.id = pid ∧
        (∃ req : Int, (u, req) ∈ p.therapies ∧ 0 < req) ∧
        ∃ room ∈ inst.rooms, room.id = rid ∧ u ∈ room.therapies ∧
          (b ∈ (p.availability.lookup d).getD [] ∨
            (⟨d, b⟩ : PinnedSession) ∈ (p.pinned_sessions.lookup u).getD []) := by
  unfold patientSessionKeys patientKeysRaw
  rw [List.mem_dedup]
  constructor
  · intro hk
    rcases List.mem_flatMap.1 hk with ⟨p, hp, hk⟩
    rcases List.mem_flatMap.1 hk with ⟨tu, htu, hk⟩
    rcases mem_ite_nil.1 hk with ⟨hpos, hk⟩
    rcases List.mem_flatMap.1 hk with ⟨day, _hday, hk⟩
    rcases List.mem_flatMap.1 hk with ⟨b', hb', hk⟩
    rcases List.mem_filterMap.1 hk with ⟨room, hroom, hsome⟩
    by_cases hc2 : tu.1 ∈ room.therapies
    · rw [if_pos hc2] at hsome
      have hkey := Option.some.inj hsome
      rw [PSKey.mk.injEq] at hkey
      obtain ⟨hpid, htid, hrid, hday', hblk⟩ := hkey
      subst hpid; subst hday'; subst hblk; subst hrid
      refine ⟨p, hp, rfl, ⟨tu.2, ?_, hpos⟩, room, hroom, rfl, ?_, ?_⟩
      · rw [← htid]; exact htu
      · rw [← htid]; exact hc2
      · unfold candidateBlocks at hb'
        rw [List.mem_dedup, List.mem_append] at hb'
        rcases hb' with hb' | hb'
        · left; exact hb'
        · right
          unfold pinnedBlocksFor at hb'
          rcases List.mem_filterMap.1 hb' with ⟨slot, hslot, hsome'⟩
          by_cases hcd : slot.day = day
          · rw [if_pos hcd] at hsome'
            have hbe := Option.some.inj hsome'
            rw [← htid]
            have : slot = ⟨day, b'⟩ := by
              cases slot
              simp_all
            rw [← this]
            exact hslot
          · rw [if_neg hcd] at hsome'
            exact absurd hsome' (by simp)
    · rw [if_neg hc2] at hsome
      exact absurd hsome (by simp)
  · rintro ⟨p, hp, hpid, ⟨req, hreq, hpos⟩, room, hroom, hrid, hth, hb⟩
    subst hpid; subst hrid
    refine List.mem_flatMap.2 ⟨p, hp, ?_⟩
    refine List.mem_flatMap.2 ⟨(u, req), hreq, ?_⟩
    refine mem_ite_nil.2 ⟨hpos, ?_⟩
    refine List.mem_flatMap.2 ⟨d, hd, ?_⟩
    have hbc : b ∈ candidateBlocks p u d := by
      unfold candidateBlocks
      rw [List.mem_dedup, List.mem_append]
      rcases hb with hb | hb
      · left; exact hb
      · right
        unfold pinnedBlocksFor
        exact List.mem_filterMap.2 ⟨⟨d, b⟩, hb, by rw [if_pos rfl]⟩
    refine List.mem_flatMap.2 ⟨b, hbc, ?_⟩
    exact List.mem_filterMap.2 ⟨room, hroom, by rw [if_pos hth]⟩

/-- Witness for C4: at the minimal instance, the key for patient P1,
therapy speech, room R1, Monday block 0 exists, and conversely. -/
theorem patient_variable_iff_witness :
    (⟨"P1", "speech", "R1", "Monday", 0⟩ : PSKey) ∈ patientSessionKeys exInst ↔
      ∃ p ∈ exInst.patients, p.id = "P1" ∧
        (∃ req : Int, ("speech", req) ∈ p.therapies ∧ 0 < req) ∧
        ∃ room ∈ exInst.rooms, room.id = "R1" ∧ "speech" ∈ room.therapies ∧
          (0 ∈ (p.availability.lookup "Monday").getD [] ∨
            (⟨"Monday", 0⟩ : PinnedSession) ∈ (p.pinned_sessions.lookup "speech").getD []) :=
  patient_variable_iff exInst "P1" "speech" "R1" "Monday" 0 (by decide)

/-! ## C5: the no-same-day week-capacity precheck -/

/-- C5 counterexample: `cexPatient` needs 2 `speech` sessions with
`no_same_day`, only 1 day has a feasible slot (so the claim's hypothesis
holds), yet the precheck output contains no week-cap message — the code
reaches the week-capacity check only when the total slot count already
meets the requirement, and here it is 1 < 2, so the slot-shortfall branch
is taken instead. -/
theorem precheck_weekcap_counterexample :
    cexPatient ∈ cexInst.patients ∧
    ("speech", (2 : Int)) ∈ cexPatient.therapies ∧
    (0 : Int) < 2 ∧
    "speech" ∈ cexPatient.no_same_day_therapies ∧
    (weekCapacity cexInst "P1" "speech" : Int) < 2 ∧
    (diagnose_infeasibility cexInst).all (fun m => !(isWeekCap m)) = true := by
  decide

/-- C5 (amended): when additionally the total number of candidate slots
meets the requirement, the week-cap shortfall message is reported for a
patient whose number of days with a feasible slot is below the
requirement of a `no_same_day` therapy. -/
theorem precheck_weekcap (inst : Instance) (p : Patient) (u : String) (n : Int)
    (hp : p ∈ inst.patients) (ht : (u, n) ∈ p.therapies) (hn : 0 < n)
    (hns : u ∈ p.no_same_day_therapies)
    (htot : n ≤ (therapySlotsTotal inst p.id u : Int))
    (hdays : (weekCapacity inst p.id u : Int) < n) :
    PrecheckMsg.weekCap p.id u (weekCapacity inst p.id u) n ∈
      diagnose_infeasibility inst := by
  have hmem : PrecheckMsg.weekCap p.id u (weekCapacity inst p.id u) n ∈
      precheckPatientReqMsgs inst := by
    unfold precheckPatientReqMsgs
    refine List.mem_flatMap.2 ⟨p, hp, ?_⟩
    refine List.mem_flatMap.2 ⟨(u, n), ht, ?_⟩
    show PrecheckMsg.weekCap p.id u (weekCapacity inst p.id u) n ∈
      (if (n : Int) ≤ 0 then ([] : List PrecheckMsg)
       else if (therapySlotsTotal inst p.id u : Int) < n then
         (if therapySlotsTotal inst p.id u = 0 then
           (if roomsByTherapy inst u = [] then [PrecheckMsg.needNoRooms p.id u] else [])
           ++ (if (p.availability.map (fun e => e.2.dedup.length)).sum = 0 then
                [PrecheckMsg.noAvailability p.id u]
              else [])
          else [])
         ++ (if therapySlotsTotal inst p.id u > 0 ∨
                (roomsByTherapy inst u ≠ [] ∧
                  (p.availability.map (fun e => e.2.dedup.length)).sum > 0) then
              [PrecheckMsg.slotShortfall p.id u n (therapySlotsTotal inst p.id u)]
            else [])
       else if u ∈ p.no_same_day_therapies then
         if (weekCapacity inst p.id u : Int) < n then
           [PrecheckMsg.weekCap p.id u (weekCapacity inst p.id u) n]
         else []
       else [])
    rw [if_neg (by omega), if_neg (by omega), if_pos hns, if_pos hdays]
    exact List.mem_singleton.2 rfl
  have hmem' : PrecheckMsg.weekCap p.id u (weekCapacity inst p.id u) n ∈
      precheckFixedMsgs inst ++ precheckPinMsgs inst
        ++ precheckPatientReqMsgs inst ++ precheckTherapyMsgs inst := by
    simp only [List.mem_append]
    exact Or.inl (Or.inr hmem)
  unfold diagnose_infeasibility
  show PrecheckMsg.weekCap p.id u (weekCapacity inst p.id u) n ∈
    (if (precheckFixedMsgs inst ++ precheckPinMsgs inst
        ++ precheckPatientReqMsgs inst ++ precheckTherapyMsgs inst) = [] then
      [PrecheckMsg.fallback]
     else
      precheckFixedMsgs inst ++ precheckPinMsgs inst
        ++ precheckPatientReqMsgs inst ++ precheckTherapyMsgs inst)
  rw [if_neg (List.ne_nil_of_mem hmem')]
  exact hmem'

/-- Witness for the amended C5: `cexPatient2` has two same-day slots
(total 2 ≥ required 2) but only one day with slots, so the week-cap
message is emitted. -/
theorem precheck_weekcap_witness :
    PrecheckMsg.weekCap "P1" "speech" (weekCapacity cexInst2 "P1" "speech") 2 ∈
      diagnose_infeasibility cexInst2 :=
  precheck_weekcap cexInst2 cexPatient2 "speech" 2 (by decide) (by decide)
    (by decide) (by decide) (by decide) (by decide)

/-! ## C6: deterministic ordering of the emitted schedule -/

/-- C6: every extracted schedule is sorted by
(day-of-week index, time string, room id, therapy id); within each
record the patient ids are sorted ascending and the staff entries are
sorted by (specialty, therapist id). -/
theorem schedule_sorted (inst : Instance)
    (sval : SKey → Bool) (pval : PSKey → Bool) (stval : StKey → Bool) :
    (extract_schedule inst sval pval stval).Pairwise
        (fun a b => recKey a ≤ recKey b) ∧
    ∀ rec ∈ extract_schedule inst sval pval stval,
      rec.patient_ids.Pairwise (fun x y : String => x.data ≤ y.data) ∧
      rec.staff.Pairwise (fun x y => staffSortKey x ≤ staffSortKey y) := by
  constructor
  · unfold extract_schedule
    refine List.Pairwise.imp ?_
      (pairwise_sortLe recordLe recordLe_trans recordLe_total _)
    intro a b hab
    simpa [recordLe] using hab
  · intro rec hrec
    unfold extract_schedule at hrec
    rw [mem_sortLe] at hrec
    rcases List.mem_filterMap.1 hrec with ⟨sk, _hsk, hsome⟩
    by_cases hc : sval sk = true
    · rw [if_pos hc] at hsome
      cases Option.some.inj hsome
      constructor
      · refine List.Pairwise.imp ?_
          (pairwise_sortLe strDataLe strDataLe_trans strDataLe_total _)
        intro x y hxy
        simpa [strDataLe] using hxy
      · refine List.Pairwise.imp ?_
          (pairwise_sortLe staffLe staffLe_trans staffLe_total _)
        intro x y hxy
        simpa [staffLe] using hxy
    · rw [if_neg hc] at hsome
      exact absurd hsome (by simp)

/-- Witness for C6: the single Monday-block-0 session of the minimal
instance has sorted patient ids and sorted staff. -/
theorem schedule_sorted_witness :
    (⟨"speech", "R1", "Monday", "08:00-09:00", ["P1"],
        [⟨"T1", "lang"⟩]⟩ : SessionRecord).patient_ids.Pairwise
      (fun x y : String => x.data ≤ y.data) ∧
    (⟨"speech", "R1", "Monday", "08:00-09:00", ["P1"],
        [⟨"T1", "lang"⟩]⟩ : SessionRecord).staff.Pairwise
      (fun x y => staffSortKey x ≤ staffSortKey y) :=
  (schedule_sorted exInst (fun sk => sk.day == "Monday" && sk.block == 0)
      (fun _ => true) (fun _ => true)).2
    ⟨"speech", "R1", "Monday", "08:00-09:00", ["P1"], [⟨"T1", "lang"⟩]⟩ (by decide)
